import Mathlib

/-!
Shallow embedding of the bang-query parser of `seiri`
(`src/seiri-core/src/bangs/parser.rs`).

The token iterator (`Iter<Token>` advanced by `next`) is embedded as a
`List Token` threaded through each function: a function returns its result
together with the list of tokens it has not consumed.  A Rust `panic!` /
`.unwrap()` on `None` is a distinct outcome (`POut.panicked`), kept separate
from the typed `Result` errors.  `parse_token_stream` is recursive; the
embedding gives the recursion a fuel argument (`POut.outOfFuel` marks
exhaustion) and the top-level entry point supplies `length + 1` fuel, which
the concrete evaluations below never exhaust.
-/

namespace Seiri

/-- The lexer's token type (`seiri-lib/src/bangs`): the variants are exactly
those the parser consumes. -/
inductive Token
  | BangPrefix (c : Char)
  | BangIdentifier (s : String)
  | ArgumentBegin
  | ArgumentEnd
  | Argument (s : String)
  | LogicalOperator (c : Char)
  | MatchAll
  | InputEnd
deriving DecidableEq, Repr

/-- Modelled from the spec: `TrackFileType`, "an enumeration of supported
audio container/codec formats, constructible from a short text token"
(its defining module is not under `src/`; only the codec names matter here,
with "flac" the spec's own example). -/
inductive TrackFileType
  | flac
  | alac
  | mp3
  | aac
deriving DecidableEq, Repr

/-- Modelled from the spec: the `FromStr` text-parsing capability of
`TrackFileType` — a short codec name parses to the value, anything else
fails. -/
def TrackFileType.fromStr (s : String) : Option TrackFileType :=
  if s = "flac" then some TrackFileType.flac
  else if s = "alac" then some TrackFileType.alac
  else if s = "mp3" then some TrackFileType.mp3
  else if s = "aac" then some TrackFileType.aac
  else none

/-- Rust's `String::from_str` is infallible: every text coerces to itself. -/
def stringFromStr : String → Option String := fun s => some s

/-- The `Bang` AST (`seiri-lib/src/bangs/bangs.rs`, per spec §3). -/
inductive Bang
  | All
  | TitleSearch (s : String)
  | TitleSearchExact (s : String)
  | FullTextSearch (s : String)
  | FullTextSearchExact (s : String)
  | AlbumTitle (s : String)
  | AlbumTitleExact (s : String)
  | AlbumArtists (s : String)
  | AlbumArtistsExact (s : String)
  | Artist (s : String)
  | ArtistExact (s : String)
  | Format (t : TrackFileType)
  | BitrateLessThan (n : Nat)
  | BitrateGreaterThan (n : Nat)
  | CoverArtWidthLessThan (n : Nat)
  | CoverArtWidthGreaterThan (n : Nat)
  | CoverArtHeightLessThan (n : Nat)
  | CoverArtHeightGreaterThan (n : Nat)
  | HasCoverArt (b : Bool)
  | HasMusicbrainzId (b : Bool)
  | Duplicates
  | Grouping (inner : Bang)
  | LogicalAnd (l r : Bang)
  | LogicalOr (l r : Bang)
deriving DecidableEq, Repr

/-- The error variants the parser constructs (`error::Error`). -/
inductive Error
  | ParserInvalidInput (s : String)
  | ParserUnknownBang (s : String)
  | ParserUnexpectedToken (t : Token)
  | LexerUnexpectedEndOfInput
deriving DecidableEq, Repr

/-- Outcome of an embedded computation: a value, a typed `Err`, a Rust
`panic!`, or fuel exhaustion of the embedding's recursion bound. -/
inductive POut (α : Type)
  | ok (a : α)
  | err (e : Error)
  | panicked
  | outOfFuel
deriving DecidableEq, Repr

/-- The semantic predicate tags (`BangType` in `parser.rs`; the `TItle` typo
is the source's). -/
inductive BangType
  | TitleSearch
  | TItleSearchExact
  | FullTextSearch
  | FullTextSearchExact
  | AlbumTitle
  | AlbumTitleExact
  | AlbumArtists
  | AlbumArtistsExact
  | Artist
  | ArtistExact
  | Format
  | BitrateLessThan
  | BitrateGreaterThan
  | CoverArtWidthLessThan
  | CoverArtWidthGreaterThan
  | CoverArtHeightLessThan
  | CoverArtHeightGreaterThan
  | HasCoverArt
  | HasMusicbrainzId
  | Duplicates
  | Grouping
  | Unknown (s : String)
deriving DecidableEq, Repr

/-- The mnemonics the resolver's match recognizes (spec §6 table). -/
def knownMnemonics : List String :=
  ["t", "T", "q", "Q", "al", "AL", "alar", "ALAR", "ar", "AR", "f",
   "brlt", "brgt", "cwlt", "cwgt", "chlt", "chgt", "c", "mb", "dup", "!"]

/-- `BangIdentifier::as_bang_type` for `str` (`parser.rs:14-41`): Rust's
string `match` is a sequence of equality tests with a binding fallback. -/
def as_bang_type (s : String) : BangType :=
  if s = "t" then BangType.TitleSearch
  else if s = "T" then BangType.TItleSearchExact
  else if s = "q" then BangType.FullTextSearch
  else if s = "Q" then BangType.FullTextSearchExact
  else if s = "al" then BangType.AlbumTitle
  else if s = "AL" then BangType.AlbumTitleExact
  else if s = "alar" then BangType.AlbumArtists
  else if s = "ALAR" then BangType.AlbumArtistsExact
  else if s = "ar" then BangType.Artist
  else if s = "AR" then BangType.ArtistExact
  else if s = "f" then BangType.Format
  else if s = "brlt" then BangType.BitrateLessThan
  else if s = "brgt" then BangType.BitrateGreaterThan
  else if s = "cwlt" then BangType.CoverArtWidthLessThan
  else if s = "cwgt" then BangType.CoverArtWidthGreaterThan
  else if s = "chlt" then BangType.CoverArtHeightLessThan
  else if s = "chgt" then BangType.CoverArtHeightGreaterThan
  else if s = "c" then BangType.HasCoverArt
  else if s = "mb" then BangType.HasMusicbrainzId
  else if s = "dup" then BangType.Duplicates
  else if s = "!" then BangType.Grouping
  else BangType.Unknown s

/-- `extract_argument` (`parser.rs:72-77`): `take(3)` then `nth(1)` reads two
tokens and returns the second, a further `next()` consumes the third if
present; fewer than two remaining tokens make the `.unwrap()` panic
(`none` here).  Returns the extracted token and the unconsumed rest. -/
def extract_argument : List Token → Option Token × List Token
  | _ :: b :: rest => (some b, rest.drop 1)
  | _ => (none, [])

/-- `parse_bang` (`parser.rs:79-94`), generic in the target type's `FromStr`
capability (`fromStr`) and the AST producer. -/
def parse_bang {T : Type} (fromStr : String → Option T) (producer : T → Bang) :
    Token → Except Error Bang
  | Token.Argument a =>
    match fromStr a with
    | some parsed => Except.ok (producer parsed)
    | none => Except.error (Error.ParserInvalidInput a)
  | _ => Except.error Error.LexerUnexpectedEndOfInput

/-- The scanning loop of `take_until_braces_balanced` (`parser.rs:101-117`):
`counter` is incremented on `ArgumentBegin`, decremented on `ArgumentEnd`
(in the source it is an integer, but it never drops below 1 between
iterations, so `Nat` subtraction is exact); a token is pushed while the
counter is nonzero, and when it reaches zero the group is padded with
`InputEnd` and returned.  Running out of tokens is the unexpected-end
error. -/
def take_until_go (counter : Nat) (group : List Token) :
    List Token → POut (List Token) × List Token
  | [] => (POut.err Error.LexerUnexpectedEndOfInput, [])
  | t :: rest =>
    let c :=
      match t with
      | Token.ArgumentBegin => counter + 1
      | Token.ArgumentEnd => counter - 1
      | _ => counter
    if c = 0 then (POut.ok (group ++ [Token.InputEnd]), rest)
    else take_until_go c (group ++ [t]) rest

/-- `take_until_braces_balanced` (`parser.rs:96-122`): the first token must
be `ArgumentBegin` (anything else, end of input included, is the source's
`panic!("Sent the wrong token!")`). -/
def take_until_braces_balanced : List Token → POut (List Token) × List Token
  | Token.ArgumentBegin :: rest => take_until_go 1 [] rest
  | _ :: rest => (POut.panicked, rest)
  | [] => (POut.panicked, [])

/-- The depth counter of the scanning loop as a pure scan, for stating
balance conditions: `some c` is the final counter value when it never
reached zero while scanning, `none` if it did. -/
def scan_counter (counter : Nat) : List Token → Option Nat
  | [] => some counter
  | t :: rest =>
    let c :=
      match t with
      | Token.ArgumentBegin => counter + 1
      | Token.ArgumentEnd => counter - 1
      | _ => counter
    if c = 0 then none else scan_counter c rest

/-- The continuation of `parse_token_stream` (`parser.rs:170-185`): after the
dispatch has bound `lhs`, the next token resolves it — `InputEnd` returns
`lhs`, `'|'`/`'&'` evaluate `lhs?` then recursively parse the remainder
(`recur` is the recursive call), any other operator character is an
unknown-bang error, any other token an unexpected-token error. -/
def parse_continue (recur : List Token → POut Bang × List Token)
    (lhs : Except Error Bang) : List Token → POut Bang × List Token
  | Token.InputEnd :: r =>
    match lhs with
    | Except.ok b => (POut.ok b, r)
    | Except.error e => (POut.err e, r)
  | Token.LogicalOperator c :: r =>
    if c = '|' then
      match lhs with
      | Except.error e => (POut.err e, r)
      | Except.ok l =>
        match recur r with
        | (POut.ok rhs, rem) => (POut.ok (Bang.LogicalOr l rhs), rem)
        | other => other
    else if c = '&' then
      match lhs with
      | Except.error e => (POut.err e, r)
      | Except.ok l =>
        match recur r with
        | (POut.ok rhs, rem) => (POut.ok (Bang.LogicalAnd l rhs), rem)
        | other => other
    else (POut.err (Error.ParserUnknownBang c.toString), r)
  | t :: r => (POut.err (Error.ParserUnexpectedToken t), r)
  | [] => (POut.err Error.LexerUnexpectedEndOfInput, [])

/-- The dispatch of `parse_token_stream` (`parser.rs:143-167`) on the
resolved bang type.  The result is `POut.ok lhs` when control falls through
to the continuation with `lhs` the source's `Result<Bang>` (so a deferred
error flows on into the continuation, exactly as in the source), and an
early `return`/`?`-propagation/panic otherwise.  `recur` is the recursive
`parse_token_stream` call used on an extracted grouping sub-stream. -/
def parse_dispatch (recur : List Token → POut Bang × List Token)
    (bt : BangType) (rest2 : List Token) : POut (Except Error Bang) × List Token :=
  match bt with
  | BangType.TitleSearch =>
    match extract_argument rest2 with
    | (none, r) => (POut.panicked, r)
    | (some arg, r) =>
      (POut.ok (parse_bang stringFromStr Bang.TitleSearch arg), r)
  | BangType.Format =>
    match extract_argument rest2 with
    | (none, r) => (POut.panicked, r)
    | (some arg, r) =>
      (POut.ok (parse_bang TrackFileType.fromStr Bang.Format arg), r)
  | BangType.Grouping =>
    match take_until_braces_balanced rest2 with
    | (POut.ok g, r) =>
      match recur g with
      | (POut.ok b, _) => (POut.ok (Except.ok (Bang.Grouping b)), r)
      | (POut.err e, _) => (POut.err e, r)
      | (POut.panicked, _) => (POut.panicked, r)
      | (POut.outOfFuel, _) => (POut.outOfFuel, r)
    | (POut.err e, r) => (POut.err e, r)
    | (POut.panicked, r) => (POut.panicked, r)
    | (POut.outOfFuel, r) => (POut.outOfFuel, r)
  | BangType.Unknown u =>
    (POut.ok (Except.error (Error.ParserUnknownBang u)), rest2)
  | _ => (POut.ok (Except.ok Bang.All), rest2)

/-- `parse_token_stream` (`parser.rs:124-186`) with a fuel bound on the
recursion (grouping sub-streams and right-hand sides of operators): the
opening token must be `BangPrefix` (payload discarded) or `MatchAll`; the
second must be `BangIdentifier`; `parse_dispatch` resolves it and
`parse_continue` resolves the token after the left-hand side. -/
def parseTS : Nat → List Token → POut Bang × List Token
  | 0, ts => (POut.outOfFuel, ts)
  | fuel + 1, ts =>
    match ts with
    | [] => (POut.err Error.LexerUnexpectedEndOfInput, [])
    | Token.MatchAll :: rest => (POut.ok Bang.All, rest)
    | Token.BangPrefix _ :: rest =>
      match rest with
      | Token.BangIdentifier ident :: rest2 =>
        match parse_dispatch (parseTS fuel) (as_bang_type ident) rest2 with
        | (POut.ok lhs, rest3) => parse_continue (parseTS fuel) lhs rest3
        | (POut.err e, r) => (POut.err e, r)
        | (POut.panicked, r) => (POut.panicked, r)
        | (POut.outOfFuel, r) => (POut.outOfFuel, r)
      | _ :: rest2 => (POut.err Error.LexerUnexpectedEndOfInput, rest2)
      | [] => (POut.err Error.LexerUnexpectedEndOfInput, [])
    | t :: rest => (POut.err (Error.ParserUnexpectedToken t), rest)

/-- Top-level `parse_token_stream`: `length + 1` fuel always suffices, since
every recursive call consumes at least one token of its caller's stream or
parses a strictly shorter extracted group. -/
def parse_token_stream (ts : List Token) : POut Bang × List Token :=
  parseTS (ts.length + 1) ts

/-- Replace the character payload of a `BangPrefix` token by `f` of it;
every other token is untouched. -/
def map_prefix_token (f : Char → Char) : Token → Token
  | Token.BangPrefix c => Token.BangPrefix (f c)
  | t => t

/-- Apply `map_prefix_token f` to the token carried by an unexpected-token
error; the other error variants carry no token. -/
def map_prefix_err (f : Char → Char) : Error → Error
  | Error.ParserUnexpectedToken t => Error.ParserUnexpectedToken (map_prefix_token f t)
  | e => e

/-- Apply `map_prefix_err f` inside an error outcome; a parsed `Bang`
contains no token, so the other outcomes are untouched. -/
def map_prefix_out (f : Char → Char) : POut Bang → POut Bang
  | POut.err e => POut.err (map_prefix_err f e)
  | o => o

/-- Apply `map_prefix_token f` to the token-list payload of an extraction
outcome. -/
def map_prefix_lout (f : Char → Char) : POut (List Token) → POut (List Token)
  | POut.ok g => POut.ok (g.map (map_prefix_token f))
  | POut.err e => POut.err (map_prefix_err f e)
  | o => o

end Seiri

/-! ## Helper lemmas -/

namespace Seiri

/-- One-step unfolding of `parseTS` at a prefix-then-identifier stream. -/
lemma parseTS_cons_ident (fuel : Nat) (c : Char) (ident : String) (rest2 : List Token) :
    parseTS (fuel + 1) (Token.BangPrefix c :: Token.BangIdentifier ident :: rest2)
      = (match parse_dispatch (parseTS fuel) (as_bang_type ident) rest2 with
         | (POut.ok lhs, rest3) => parse_continue (parseTS fuel) lhs rest3
         | (POut.err e, r) => (POut.err e, r)
         | (POut.panicked, r) => (POut.panicked, r)
         | (POut.outOfFuel, r) => (POut.outOfFuel, r)) := rfl

/-- The scanning loop returns the scanned tokens plus the sentinel, and the
rest, when the counter (tracked by `scan_counter`) first returns to zero at
a closing `ArgumentEnd`. -/
lemma take_until_go_closes (inner : List Token) :
    ∀ (counter : Nat) (group rest : List Token),
      scan_counter counter inner = some 1 →
      take_until_go counter group (inner ++ Token.ArgumentEnd :: rest)
        = (POut.ok (group ++ inner ++ [Token.InputEnd]), rest) := by
  induction inner with
  | nil =>
    intro counter group rest h
    simp only [scan_counter, Option.some.injEq] at h
    subst h
    simp [take_until_go]
  | cons t inner ih =>
    intro counter group rest h
    simp only [scan_counter] at h
    simp only [List.cons_append, take_until_go, List.append_eq]
    generalize hc : (match t with
      | Token.ArgumentBegin => counter + 1
      | Token.ArgumentEnd => counter - 1
      | _ => counter) = c0 at h ⊢
    by_cases h0 : c0 = 0
    · simp [h0] at h
    · rw [if_neg h0] at h
      rw [if_neg h0, ih c0 (group ++ [t]) rest h]
      simp

/-- The scanning loop returns the unexpected-end error when the counter
never returns to zero over the whole remaining stream. -/
lemma take_until_go_exhausts (ts : List Token) :
    ∀ (counter : Nat) (group : List Token),
      (scan_counter counter ts).isSome →
      take_until_go counter group ts = (POut.err Error.LexerUnexpectedEndOfInput, []) := by
  induction ts with
  | nil => intro counter group _; rfl
  | cons t rest ih =>
    intro counter group h
    simp only [scan_counter] at h
    simp only [take_until_go]
    generalize hc : (match t with
      | Token.ArgumentBegin => counter + 1
      | Token.ArgumentEnd => counter - 1
      | _ => counter) = c0 at h ⊢
    by_cases h0 : c0 = 0
    · simp [h0] at h
    · rw [if_neg h0] at h
      rw [if_neg h0, ih c0 (group ++ [t]) h]

/-- Balanced extraction: with `inner` the tokens strictly between the outer
delimiters (depth never returning to zero inside it), the extraction yields
`inner` plus the `InputEnd` sentinel and leaves exactly the tokens after
the closing delimiter. -/
lemma take_until_balanced (inner rest : List Token) (h : scan_counter 1 inner = some 1) :
    take_until_braces_balanced (Token.ArgumentBegin :: (inner ++ Token.ArgumentEnd :: rest))
      = (POut.ok (inner ++ [Token.InputEnd]), rest) := by
  have he : take_until_braces_balanced
      (Token.ArgumentBegin :: (inner ++ Token.ArgumentEnd :: rest))
      = take_until_go 1 [] (inner ++ Token.ArgumentEnd :: rest) := rfl
  rw [he, take_until_go_closes inner 1 [] rest h]
  simp

/-- Unbalanced extraction: if the depth counter never returns to zero, the
extraction is the unexpected-end error. -/
lemma take_until_unbalanced (ts : List Token) (h : (scan_counter 1 ts).isSome) :
    take_until_braces_balanced (Token.ArgumentBegin :: ts)
      = (POut.err Error.LexerUnexpectedEndOfInput, []) := by
  have he : take_until_braces_balanced (Token.ArgumentBegin :: ts)
      = take_until_go 1 [] ts := rfl
  rw [he, take_until_go_exhausts ts 1 [] h]

/-- A mnemonic outside the table resolves to the `Unknown` tag carrying it. -/
lemma as_bang_type_of_not_mem (s : String) (h : s ∉ knownMnemonics) :
    as_bang_type s = BangType.Unknown s := by
  simp only [knownMnemonics, List.mem_cons, List.not_mem_nil, or_false, not_or] at h
  obtain ⟨h1, h2, h3, h4, h5, h6, h7, h8, h9, h10, h11, h12, h13, h14, h15, h16, h17, h18,
    h19, h20, h21⟩ := h
  simp only [as_bang_type, if_neg h1, if_neg h2, if_neg h3, if_neg h4, if_neg h5, if_neg h6,
    if_neg h7, if_neg h8, if_neg h9, if_neg h10, if_neg h11, if_neg h12, if_neg h13,
    if_neg h14, if_neg h15, if_neg h16, if_neg h17, if_neg h18, if_neg h19, if_neg h20,
    if_neg h21]

/-- `parse_bang` ignores the prefix-character payload of its argument
token (only `Argument` is inspected). -/
lemma parse_bang_map {T : Type} (f : Char → Char) (fromStr : String → Option T)
    (producer : T → Bang) (t : Token) :
    parse_bang fromStr producer (map_prefix_token f t) = parse_bang fromStr producer t := by
  cases t <;> rfl

/-- `parse_bang` errors carry no token, so mapping prefix characters inside
them is the identity. -/
lemma parse_bang_mapError {T : Type} (f : Char → Char) (fromStr : String → Option T)
    (producer : T → Bang) (t : Token) :
    Except.mapError (map_prefix_err f) (parse_bang fromStr producer t)
      = parse_bang fromStr producer t := by
  cases t <;> try rfl
  case Argument a =>
    simp only [parse_bang]
    cases fromStr a <;> rfl

/-- The depth-counter step only looks at the token's constructor, which
`map_prefix_token` preserves. -/
lemma bump_map (f : Char → Char) (t : Token) (counter : Nat) :
    (match map_prefix_token f t with
      | Token.ArgumentBegin => counter + 1
      | Token.ArgumentEnd => counter - 1
      | _ => counter)
    = (match t with
      | Token.ArgumentBegin => counter + 1
      | Token.ArgumentEnd => counter - 1
      | _ => counter) := by
  cases t <;> rfl

/-- The scanning loop commutes with mapping prefix characters. -/
lemma take_until_go_map (f : Char → Char) (ts : List Token) :
    ∀ (counter : Nat) (group : List Token),
      take_until_go counter (group.map (map_prefix_token f)) (ts.map (map_prefix_token f))
        = (map_prefix_lout f (take_until_go counter group ts).1,
           (take_until_go counter group ts).2.map (map_prefix_token f)) := by
  induction ts with
  | nil => intro counter group; rfl
  | cons t rest ih =>
    intro counter group
    simp only [List.map_cons, take_until_go, bump_map]
    generalize (match t with
      | Token.ArgumentBegin => counter + 1
      | Token.ArgumentEnd => counter - 1
      | _ => counter) = c0
    by_cases h0 : c0 = 0
    · simp [h0, map_prefix_lout, map_prefix_token]
    · rw [if_neg h0, if_neg h0]
      have hg : (group.map (map_prefix_token f)) ++ [map_prefix_token f t]
          = (group ++ [t]).map (map_prefix_token f) := by simp
      rw [hg, ih c0 (group ++ [t])]

/-- Balanced extraction commutes with mapping prefix characters. -/
lemma take_until_map (f : Char → Char) (ts : List Token) :
    take_until_braces_balanced (ts.map (map_prefix_token f))
      = (map_prefix_lout f (take_until_braces_balanced ts).1,
         (take_until_braces_balanced ts).2.map (map_prefix_token f)) := by
  cases ts with
  | nil => rfl
  | cons t rest =>
    cases t with
    | ArgumentBegin =>
      have he : take_until_braces_balanced ((Token.ArgumentBegin :: rest).map (map_prefix_token f))
          = take_until_go 1 ([].map (map_prefix_token f)) (rest.map (map_prefix_token f)) := rfl
      rw [he, take_until_go_map f rest 1 []]
      rfl
    | BangPrefix c => rfl
    | BangIdentifier s => rfl
    | ArgumentEnd => rfl
    | Argument s => rfl
    | LogicalOperator c => rfl
    | MatchAll => rfl
    | InputEnd => rfl

/-- The dispatch commutes with mapping prefix characters, given that the
recursive parse does: the deferred `lhs` only changes by mapping inside its
error (which `parse_bang_mapError` shows is the identity there). -/
lemma parse_dispatch_map (f : Char → Char)
    (recur : List Token → POut Bang × List Token)
    (hrec : ∀ g : List Token, recur (g.map (map_prefix_token f))
      = (map_prefix_out f (recur g).1, (recur g).2.map (map_prefix_token f)))
    (bt : BangType) (rest2 : List Token) :
    parse_dispatch recur bt (rest2.map (map_prefix_token f))
      = (match (parse_dispatch recur bt rest2).1 with
         | POut.ok lhs => POut.ok (Except.mapError (map_prefix_err f) lhs)
         | POut.err e => POut.err (map_prefix_err f e)
         | POut.panicked => POut.panicked
         | POut.outOfFuel => POut.outOfFuel,
         (parse_dispatch recur bt rest2).2.map (map_prefix_token f)) := by
  cases bt
  case TitleSearch =>
    match rest2 with
    | [] => rfl
    | [a] => rfl
    | a :: b :: rest =>
      have hd : (rest.map (map_prefix_token f)).drop 1
          = (rest.drop 1).map (map_prefix_token f) := by
        cases rest <;> rfl
      show (POut.ok (parse_bang stringFromStr Bang.TitleSearch (map_prefix_token f b)),
            (rest.map (map_prefix_token f)).drop 1)
          = (POut.ok (Except.mapError (map_prefix_err f)
              (parse_bang stringFromStr Bang.TitleSearch b)),
             (rest.drop 1).map (map_prefix_token f))
      rw [parse_bang_map, parse_bang_mapError, hd]
  case Format =>
    match rest2 with
    | [] => rfl
    | [a] => rfl
    | a :: b :: rest =>
      have hd : (rest.map (map_prefix_token f)).drop 1
          = (rest.drop 1).map (map_prefix_token f) := by
        cases rest <;> rfl
      show (POut.ok (parse_bang TrackFileType.fromStr Bang.Format (map_prefix_token f b)),
            (rest.map (map_prefix_token f)).drop 1)
          = (POut.ok (Except.mapError (map_prefix_err f)
              (parse_bang TrackFileType.fromStr Bang.Format b)),
             (rest.drop 1).map (map_prefix_token f))
      rw [parse_bang_map, parse_bang_mapError, hd]
  case Grouping =>
    simp only [parse_dispatch]
    rw [take_until_map]
    rcases htu : take_until_braces_balanced rest2 with ⟨o, r⟩
    cases o with
    | ok g =>
      simp only [map_prefix_lout]
      rw [hrec g]
      rcases hrg : recur g with ⟨o2, rem2⟩
      cases o2 <;> rfl
    | err e => simp only [map_prefix_lout]
    | panicked => rfl
    | outOfFuel => rfl
  case Unknown u => rfl
  all_goals rfl

/-- The continuation commutes with mapping prefix characters, given that
the recursive parse does; the deferred `lhs` enters with its error mapped
(which the dispatch produces). -/
lemma parse_continue_mapError (f : Char → Char)
    (recur : List Token → POut Bang × List Token)
    (hrec : ∀ g : List Token, recur (g.map (map_prefix_token f))
      = (map_prefix_out f (recur g).1, (recur g).2.map (map_prefix_token f)))
    (lhs : Except Error Bang) (rest3 : List Token) :
    parse_continue recur (Except.mapError (map_prefix_err f) lhs) (rest3.map (map_prefix_token f))
      = (map_prefix_out f (parse_continue recur lhs rest3).1,
         (parse_continue recur lhs rest3).2.map (map_prefix_token f)) := by
  cases rest3 with
  | nil => rfl
  | cons t r =>
    cases t with
    | InputEnd =>
      cases lhs with
      | ok b => rfl
      | error e => rfl
    | LogicalOperator c =>
      simp only [List.map_cons, map_prefix_token, parse_continue]
      by_cases hc : c = '|'
      · rw [if_pos hc, if_pos hc]
        cases lhs with
        | error e => rfl
        | ok l =>
          simp only [Except.mapError]
          rw [hrec r]
          rcases hrr : recur r with ⟨o2, rem2⟩
          cases o2 <;> rfl
      · rw [if_neg hc, if_neg hc]
        by_cases hc2 : c = '&'
        · rw [if_pos hc2, if_pos hc2]
          cases lhs with
          | error e => rfl
          | ok l =>
            simp only [Except.mapError]
            rw [hrec r]
            rcases hrr : recur r with ⟨o2, rem2⟩
            cases o2 <;> rfl
        · rw [if_neg hc2, if_neg hc2]
          rfl
    | BangPrefix c => rfl
    | BangIdentifier s => rfl
    | ArgumentBegin => rfl
    | ArgumentEnd => rfl
    | Argument s => rfl
    | MatchAll => rfl

/-- The fuelled parser commutes with mapping prefix characters: the result
only changes by mapping the token echoed inside an unexpected-token error
(and the unconsumed remainder). -/
lemma parseTS_map (f : Char → Char) :
    ∀ (fuel : Nat) (ts : List Token),
      parseTS fuel (ts.map (map_prefix_token f))
        = (map_prefix_out f (parseTS fuel ts).1,
           (parseTS fuel ts).2.map (map_prefix_token f)) := by
  intro fuel
  induction fuel with
  | zero => intro ts; rfl
  | succ fuel ih =>
    intro ts
    cases ts with
    | nil => rfl
    | cons t rest =>
      cases t with
      | MatchAll => rfl
      | BangIdentifier s => rfl
      | ArgumentBegin => rfl
      | ArgumentEnd => rfl
      | Argument s => rfl
      | LogicalOperator c => rfl
      | InputEnd => rfl
      | BangPrefix c =>
        cases rest with
        | nil => rfl
        | cons t2 rest2 =>
          cases t2 with
          | BangIdentifier ident =>
            simp only [List.map_cons, map_prefix_token]
            rw [parseTS_cons_ident, parseTS_cons_ident,
              parse_dispatch_map f (parseTS fuel) ih (as_bang_type ident) rest2]
            rcases hd : parse_dispatch (parseTS fuel) (as_bang_type ident) rest2 with ⟨st, r3⟩
            cases st with
            | ok lhs => exact parse_continue_mapError f (parseTS fuel) ih lhs r3
            | err e => rfl
            | panicked => rfl
            | outOfFuel => rfl
          | BangPrefix c2 => rfl
          | MatchAll => rfl
          | ArgumentBegin => rfl
          | ArgumentEnd => rfl
          | Argument s => rfl
          | LogicalOperator c2 => rfl
          | InputEnd => rfl

end Seiri

/-! ## Claims -/

namespace Seiri

/-- C1: the claim that no user input can make `parse_token_stream` abort is
violated by the code: on the stream lexed from `"!t"` (`BangPrefix`,
`BangIdentifier "t"`, `InputEnd`) the dispatch calls `extract_argument` with
only `InputEnd` left, whose `nth(1)` is `None` and whose `.unwrap()`
panics — the parse aborts instead of returning a typed error. -/
theorem C1_bang_t_panics :
    parse_token_stream [Token.BangPrefix '!', Token.BangIdentifier "t", Token.InputEnd]
        = (POut.panicked, []) ∧
    extract_argument [Token.InputEnd] = (none, []) := by decide

/-- C2 counterexample: the exact-title mnemonic `T` is argument-taking and
its argument `"foo"` coerces (to itself) — yet the parser does not return
`TitleSearchExact "foo"`: the dispatch's catch-all drops to `Bang.All`
without consuming the argument triple, and the continuation then fails on
`ArgumentBegin`. -/
theorem C2_counterexample :
    parse_token_stream [Token.BangPrefix '!', Token.BangIdentifier "T",
        Token.ArgumentBegin, Token.Argument "foo", Token.ArgumentEnd, Token.InputEnd]
      = (POut.err (Error.ParserUnexpectedToken Token.ArgumentBegin),
         [Token.Argument "foo", Token.ArgumentEnd, Token.InputEnd]) ∧
    (parse_token_stream [Token.BangPrefix '!', Token.BangIdentifier "T",
        Token.ArgumentBegin, Token.Argument "foo", Token.ArgumentEnd, Token.InputEnd]).1
      ≠ POut.ok (Bang.TitleSearchExact "foo") := by decide

/-- C2 (amended): only the argument-taking mnemonics the dispatch actually
implements — `t` (title search) and `f` (format) — consume the
`ArgumentBegin, Argument, ArgumentEnd` triple and return the predicate node
holding the coerced argument; every other argument-taking mnemonic falls
into the catch-all. -/
theorem C2_implemented_mnemonics_consume_triple :
    (∀ s : String,
      parse_token_stream [Token.BangPrefix '!', Token.BangIdentifier "t",
          Token.ArgumentBegin, Token.Argument s, Token.ArgumentEnd, Token.InputEnd]
        = (POut.ok (Bang.TitleSearch s), [])) ∧
    (∀ (s : String) (v : TrackFileType), TrackFileType.fromStr s = some v →
      parse_token_stream [Token.BangPrefix '!', Token.BangIdentifier "f",
          Token.ArgumentBegin, Token.Argument s, Token.ArgumentEnd, Token.InputEnd]
        = (POut.ok (Bang.Format v), [])) := by
  refine ⟨fun s => rfl, fun s v h => ?_⟩
  unfold TrackFileType.fromStr at h
  split_ifs at h with hs1 hs2 hs3 hs4
  · subst hs1; cases h; decide
  · subst hs2; cases h; decide
  · subst hs3; cases h; decide
  · subst hs4; cases h; decide

/-- C2 witness: the format mnemonic with argument "flac". -/
theorem C2_implemented_mnemonics_consume_triple_witness :
    TrackFileType.fromStr "flac" = some TrackFileType.flac ∧
    parse_token_stream [Token.BangPrefix '!', Token.BangIdentifier "f",
        Token.ArgumentBegin, Token.Argument "flac", Token.ArgumentEnd, Token.InputEnd]
      = (POut.ok (Bang.Format TrackFileType.flac), []) :=
  ⟨by decide,
   C2_implemented_mnemonics_consume_triple.2 "flac" TrackFileType.flac (by decide)⟩

/-- C3 counterexample: the numeric-bound mnemonic `brlt` with the
non-numeric argument `"xyz"` does not return the invalid-input error
carrying `"xyz"` — the dispatch's catch-all drops to `Bang.All` without
consuming the argument, and the continuation returns the unexpected-token
error carrying `ArgumentBegin`. -/
theorem C3_counterexample :
    parse_token_stream [Token.BangPrefix '!', Token.BangIdentifier "brlt",
        Token.ArgumentBegin, Token.Argument "xyz", Token.ArgumentEnd, Token.InputEnd]
      = (POut.err (Error.ParserUnexpectedToken Token.ArgumentBegin),
         [Token.Argument "xyz", Token.ArgumentEnd, Token.InputEnd]) ∧
    (parse_token_stream [Token.BangPrefix '!', Token.BangIdentifier "brlt",
        Token.ArgumentBegin, Token.Argument "xyz", Token.ArgumentEnd, Token.InputEnd]).1
      ≠ POut.err (Error.ParserInvalidInput "xyz") := by decide

/-- C3 (amended): the numeric-bound mnemonics are not implemented in the
dispatch: for every argument text (numeric or not) the well-formed query
returns the unexpected-token error carrying `ArgumentBegin`, never the
invalid-input error. -/
theorem C3_numeric_mnemonics_unexpected_token :
    (∀ s : String,
      parse_token_stream [Token.BangPrefix '!', Token.BangIdentifier "brlt",
          Token.ArgumentBegin, Token.Argument s, Token.ArgumentEnd, Token.InputEnd]
        = (POut.err (Error.ParserUnexpectedToken Token.ArgumentBegin),
           [Token.Argument s, Token.ArgumentEnd, Token.InputEnd])) ∧
    (∀ s : String,
      parse_token_stream [Token.BangPrefix '!', Token.BangIdentifier "brgt",
          Token.ArgumentBegin, Token.Argument s, Token.ArgumentEnd, Token.InputEnd]
        = (POut.err (Error.ParserUnexpectedToken Token.ArgumentBegin),
           [Token.Argument s, Token.ArgumentEnd, Token.InputEnd])) ∧
    (∀ s : String,
      parse_token_stream [Token.BangPrefix '!', Token.BangIdentifier "cwlt",
          Token.ArgumentBegin, Token.Argument s, Token.ArgumentEnd, Token.InputEnd]
        = (POut.err (Error.ParserUnexpectedToken Token.ArgumentBegin),
           [Token.Argument s, Token.ArgumentEnd, Token.InputEnd])) ∧
    (∀ s : String,
      parse_token_stream [Token.BangPrefix '!', Token.BangIdentifier "cwgt",
          Token.ArgumentBegin, Token.Argument s, Token.ArgumentEnd, Token.InputEnd]
        = (POut.err (Error.ParserUnexpectedToken Token.ArgumentBegin),
           [Token.Argument s, Token.ArgumentEnd, Token.InputEnd])) ∧
    (∀ s : String,
      parse_token_stream [Token.BangPrefix '!', Token.BangIdentifier "chlt",
          Token.ArgumentBegin, Token.Argument s, Token.ArgumentEnd, Token.InputEnd]
        = (POut.err (Error.ParserUnexpectedToken Token.ArgumentBegin),
           [Token.Argument s, Token.ArgumentEnd, Token.InputEnd])) ∧
    (∀ s : String,
      parse_token_stream [Token.BangPrefix '!', Token.BangIdentifier "chgt",
          Token.ArgumentBegin, Token.Argument s, Token.ArgumentEnd, Token.InputEnd]
        = (POut.err (Error.ParserUnexpectedToken Token.ArgumentBegin),
           [Token.Argument s, Token.ArgumentEnd, Token.InputEnd])) :=
  ⟨fun _ => rfl, fun _ => rfl, fun _ => rfl, fun _ => rfl, fun _ => rfl, fun _ => rfl⟩

/-- C4: on the grouping mnemonic the parser's balanced extraction collects
exactly the tokens strictly between the outer balanced delimiters (the
depth counter, `scan_counter`, staying positive over `inner` and returning
to 1 there, so the following `ArgumentEnd` closes it; inner delimiters are
kept), appends the `InputEnd` sentinel, recursively parses the sub-stream
and wraps the result in `Grouping`; exhausting the stream before the
counter returns to zero yields the unexpected-end-of-input error, from the
extraction and from the parser. -/
theorem C4_grouping_balanced_extraction :
    (∀ inner rest : List Token, scan_counter 1 inner = some 1 →
      take_until_braces_balanced (Token.ArgumentBegin :: (inner ++ Token.ArgumentEnd :: rest))
        = (POut.ok (inner ++ [Token.InputEnd]), rest)) ∧
    (∀ ts : List Token, (scan_counter 1 ts).isSome →
      take_until_braces_balanced (Token.ArgumentBegin :: ts)
        = (POut.err Error.LexerUnexpectedEndOfInput, [])) ∧
    (∀ (fuel : Nat) (c : Char) (inner : List Token) (b : Bang) (rem : List Token),
      scan_counter 1 inner = some 1 →
      parseTS fuel (inner ++ [Token.InputEnd]) = (POut.ok b, rem) →
      parseTS (fuel + 1) (Token.BangPrefix c :: Token.BangIdentifier "!" ::
          Token.ArgumentBegin :: (inner ++ [Token.ArgumentEnd, Token.InputEnd]))
        = (POut.ok (Bang.Grouping b), [])) ∧
    (∀ (fuel : Nat) (c : Char) (ts : List Token), (scan_counter 1 ts).isSome →
      parseTS (fuel + 1) (Token.BangPrefix c :: Token.BangIdentifier "!" ::
          Token.ArgumentBegin :: ts)
        = (POut.err Error.LexerUnexpectedEndOfInput, [])) := by
  refine ⟨take_until_balanced, take_until_unbalanced, ?_, ?_⟩
  · intro fuel c inner b rem h hp
    rw [parseTS_cons_ident, (by decide : as_bang_type "!" = BangType.Grouping)]
    simp only [parse_dispatch, take_until_balanced inner [Token.InputEnd] h, hp]
    rfl
  · intro fuel c ts h
    rw [parseTS_cons_ident, (by decide : as_bang_type "!" = BangType.Grouping)]
    simp only [parse_dispatch, take_until_unbalanced ts h]

/-- C4 witness: the grouping `!{!t{x}}` with balanced inner stream, and the
unterminated grouping `!{!t` that exhausts the stream. -/
theorem C4_grouping_balanced_extraction_witness :
    (scan_counter 1 [Token.BangPrefix '!', Token.BangIdentifier "t", Token.ArgumentBegin,
        Token.Argument "x", Token.ArgumentEnd] = some 1 ∧
      parseTS 7 ([Token.BangPrefix '!', Token.BangIdentifier "t", Token.ArgumentBegin,
        Token.Argument "x", Token.ArgumentEnd] ++ [Token.InputEnd])
        = (POut.ok (Bang.TitleSearch "x"), []) ∧
      parseTS 8 (Token.BangPrefix '!' :: Token.BangIdentifier "!" ::
          Token.ArgumentBegin :: ([Token.BangPrefix '!', Token.BangIdentifier "t",
          Token.ArgumentBegin, Token.Argument "x", Token.ArgumentEnd]
          ++ [Token.ArgumentEnd, Token.InputEnd]))
        = (POut.ok (Bang.Grouping (Bang.TitleSearch "x")), [])) ∧
    ((scan_counter 1 [Token.BangPrefix '!', Token.BangIdentifier "t"]).isSome ∧
      parseTS 4 (Token.BangPrefix '!' :: Token.BangIdentifier "!" ::
          Token.ArgumentBegin :: [Token.BangPrefix '!', Token.BangIdentifier "t"])
        = (POut.err Error.LexerUnexpectedEndOfInput, [])) :=
  ⟨⟨by decide, by decide,
    C4_grouping_balanced_extraction.2.2.1 7 '!' [Token.BangPrefix '!',
      Token.BangIdentifier "t", Token.ArgumentBegin, Token.Argument "x",
      Token.ArgumentEnd] (Bang.TitleSearch "x") [] (by decide) (by decide)⟩,
   ⟨by decide,
    C4_grouping_balanced_extraction.2.2.2 3 '!' [Token.BangPrefix '!',
      Token.BangIdentifier "t"] (by decide)⟩⟩

/-- C5: chains associate to the right — `A | B | C` parses as
`LogicalOr(A, LogicalOr(B, C))`, and `&` has no precedence over `|`:
`A & B | C` parses as `LogicalAnd(A, LogicalOr(B, C))`. -/
theorem C5_operators_right_associative :
    (∀ a b c : String,
      parse_token_stream
          [Token.BangPrefix '!', Token.BangIdentifier "t", Token.ArgumentBegin,
           Token.Argument a, Token.ArgumentEnd, Token.LogicalOperator '|',
           Token.BangPrefix '!', Token.BangIdentifier "t", Token.ArgumentBegin,
           Token.Argument b, Token.ArgumentEnd, Token.LogicalOperator '|',
           Token.BangPrefix '!', Token.BangIdentifier "t", Token.ArgumentBegin,
           Token.Argument c, Token.ArgumentEnd, Token.InputEnd]
        = (POut.ok (Bang.LogicalOr (Bang.TitleSearch a)
            (Bang.LogicalOr (Bang.TitleSearch b) (Bang.TitleSearch c))), [])) ∧
    (∀ a b c : String,
      parse_token_stream
          [Token.BangPrefix '!', Token.BangIdentifier "t", Token.ArgumentBegin,
           Token.Argument a, Token.ArgumentEnd, Token.LogicalOperator '&',
           Token.BangPrefix '!', Token.BangIdentifier "t", Token.ArgumentBegin,
           Token.Argument b, Token.ArgumentEnd, Token.LogicalOperator '|',
           Token.BangPrefix '!', Token.BangIdentifier "t", Token.ArgumentBegin,
           Token.Argument c, Token.ArgumentEnd, Token.InputEnd]
        = (POut.ok (Bang.LogicalAnd (Bang.TitleSearch a)
            (Bang.LogicalOr (Bang.TitleSearch b) (Bang.TitleSearch c))), [])) :=
  ⟨fun _ _ _ => rfl, fun _ _ _ => rfl⟩

/-- C6: a stream opening with `MatchAll` parses to `Bang.All` at once, for
every trailing token sequence, which is returned unconsumed and never
inspected. -/
theorem C6_matchall_ignores_trailing (rest : List Token) :
    parse_token_stream (Token.MatchAll :: rest) = (POut.ok Bang.All, rest) := rfl

/-- C6 witness: match-all followed by garbage tokens still parses to the
all predicate, leaving the garbage unread. -/
theorem C6_matchall_ignores_trailing_witness :
    parse_token_stream [Token.MatchAll, Token.Argument "junk", Token.ArgumentEnd]
      = (POut.ok Bang.All, [Token.Argument "junk", Token.ArgumentEnd]) :=
  C6_matchall_ignores_trailing [Token.Argument "junk", Token.ArgumentEnd]

/-- C7: an identifier outside the mnemonic table yields the unknown-bang
error carrying its text, and in continuation position a `LogicalOperator`
whose character is neither `'&'` nor `'|'` yields the unknown-bang error
carrying that character. -/
theorem C7_unknown_bang_errors :
    (∀ s : String, s ∉ knownMnemonics →
      parse_token_stream [Token.BangPrefix '!', Token.BangIdentifier s, Token.InputEnd]
        = (POut.err (Error.ParserUnknownBang s), [])) ∧
    (∀ c : Char, c ≠ '&' → c ≠ '|' →
      parse_token_stream [Token.BangPrefix '!', Token.BangIdentifier "dup",
          Token.LogicalOperator c, Token.InputEnd]
        = (POut.err (Error.ParserUnknownBang c.toString), [Token.InputEnd])) := by
  constructor
  · intro s h
    show parseTS (3 + 1) [Token.BangPrefix '!', Token.BangIdentifier s, Token.InputEnd]
        = (POut.err (Error.ParserUnknownBang s), [])
    rw [parseTS_cons_ident, as_bang_type_of_not_mem s h]
    rfl
  · intro c h1 h2
    show parseTS (4 + 1) [Token.BangPrefix '!', Token.BangIdentifier "dup",
        Token.LogicalOperator c, Token.InputEnd]
        = (POut.err (Error.ParserUnknownBang c.toString), [Token.InputEnd])
    rw [parseTS_cons_ident, (by decide : as_bang_type "dup" = BangType.Duplicates)]
    simp only [parse_dispatch, parse_continue, if_neg h1, if_neg h2]

/-- C7 witness: the unknown mnemonic "zz" and the unknown operator '^'. -/
theorem C7_unknown_bang_errors_witness :
    ("zz" ∉ knownMnemonics ∧
      parse_token_stream [Token.BangPrefix '!', Token.BangIdentifier "zz", Token.InputEnd]
        = (POut.err (Error.ParserUnknownBang "zz"), [])) ∧
    (('^' : Char) ≠ '&' ∧ ('^' : Char) ≠ '|' ∧
      parse_token_stream [Token.BangPrefix '!', Token.BangIdentifier "dup",
          Token.LogicalOperator '^', Token.InputEnd]
        = (POut.err (Error.ParserUnknownBang ('^' : Char).toString), [Token.InputEnd])) :=
  ⟨⟨by decide, C7_unknown_bang_errors.1 "zz" (by decide)⟩,
   ⟨by decide, by decide, C7_unknown_bang_errors.2 '^' (by decide) (by decide)⟩⟩

/-- C8: a title-search query parses to the title-search predicate holding
exactly its argument text, for every argument text, and in particular for
the spec's test text "foo". -/
theorem C8_title_search_holds_argument :
    (∀ s : String,
      parse_token_stream [Token.BangPrefix '!', Token.BangIdentifier "t",
          Token.ArgumentBegin, Token.Argument s, Token.ArgumentEnd, Token.InputEnd]
        = (POut.ok (Bang.TitleSearch s), [])) ∧
    parse_token_stream [Token.BangPrefix '!', Token.BangIdentifier "t",
        Token.ArgumentBegin, Token.Argument "foo", Token.ArgumentEnd, Token.InputEnd]
      = (POut.ok (Bang.TitleSearch "foo"), []) :=
  ⟨fun _ => rfl, rfl⟩

/-- C9 counterexample: two streams identical except for the character
inside a `BangPrefix` token parse to different results — the prefix token
reaches continuation position and is echoed inside the unexpected-token
error, character included. -/
theorem C9_counterexample :
    parse_token_stream [Token.BangPrefix '!', Token.BangIdentifier "dup",
        Token.BangPrefix 'a', Token.InputEnd]
      = (POut.err (Error.ParserUnexpectedToken (Token.BangPrefix 'a')), [Token.InputEnd]) ∧
    parse_token_stream [Token.BangPrefix '!', Token.BangIdentifier "dup",
        Token.BangPrefix 'b', Token.InputEnd]
      = (POut.err (Error.ParserUnexpectedToken (Token.BangPrefix 'b')), [Token.InputEnd]) ∧
    parse_token_stream [Token.BangPrefix '!', Token.BangIdentifier "dup",
        Token.BangPrefix 'a', Token.InputEnd]
      ≠ parse_token_stream [Token.BangPrefix '!', Token.BangIdentifier "dup",
        Token.BangPrefix 'b', Token.InputEnd] := by decide

/-- C9 (amended): the `BangPrefix` character payload influences the parse
result only through the token echoed inside an unexpected-token error and
through the returned unconsumed tokens: mapping every `BangPrefix`
character by any function commutes with `parse_token_stream`, successful
`Bang` results and all other error variants unchanged. -/
theorem C9_prefix_char_influences_only_error_echo (f : Char → Char) (ts : List Token) :
    parse_token_stream (ts.map (map_prefix_token f))
      = (map_prefix_out f (parse_token_stream ts).1,
         (parse_token_stream ts).2.map (map_prefix_token f)) := by
  unfold parse_token_stream
  rw [List.length_map]
  exact parseTS_map f (ts.length + 1) ts

/-- C10: an empty grouping is never accepted: the balanced extraction
yields the sub-stream holding only the `InputEnd` sentinel, whose recursive
parse is the unexpected-token error carrying `InputEnd` — neither the
unexpected-end-of-input error nor a successful `Bang`. -/
theorem C10_empty_grouping_rejected :
    take_until_braces_balanced [Token.ArgumentBegin, Token.ArgumentEnd, Token.InputEnd]
      = (POut.ok [Token.InputEnd], [Token.InputEnd]) ∧
    parse_token_stream [Token.InputEnd]
      = (POut.err (Error.ParserUnexpectedToken Token.InputEnd), []) ∧
    parse_token_stream [Token.BangPrefix '!', Token.BangIdentifier "!",
        Token.ArgumentBegin, Token.ArgumentEnd, Token.InputEnd]
      = (POut.err (Error.ParserUnexpectedToken Token.InputEnd), [Token.InputEnd]) := by
  decide

end Seiri
